import Mathlib

/-!
Verification of the reely video-processing backend
(youtube-trimmer/backend: job_manager.py, utils.py, utils_optimized.py,
async_processor.py) against its natural-language specification.

The Python source is shallowly embedded: pure fragments become Lean
functions, external effects (yt-dlp, ffmpeg/ffprobe, Whisper, LLM calls,
the database) become explicit oracle parameters recording the outcome of
each external call, the filesystem becomes an explicit value threaded
through the functions, and Python floats are modelled by exact rationals.
-/

deriving instance DecidableEq for Except

namespace Reely

/-! ## Filesystem model

A filesystem is the set of regular-file paths and directory paths that
currently exist.  Paths are plain strings; a real filesystem never holds
the same path twice, which the removal operation below relies on. -/

structure FS where
  files : List String
  dirs : List String
deriving DecidableEq, Repr

/-- `os.path.exists`: true for both regular files and directories. -/
def FS.pathExists (fs : FS) (p : String) : Bool :=
  decide (p ∈ fs.files) || decide (p ∈ fs.dirs)

/-- Create a regular file (e.g. a finished download or an ffmpeg output). -/
def FS.addFile (fs : FS) (p : String) : FS :=
  { fs with files := p :: fs.files }

/-- Create a directory (e.g. `tempfile.mkdtemp`). -/
def FS.addDir (fs : FS) (p : String) : FS :=
  { fs with dirs := p :: fs.dirs }

/-- `os.remove`: deletes a regular file.  On a directory it raises
`IsADirectoryError` (and on a missing path `FileNotFoundError`); the
error case is the `.error` branch.  Directories are never removed. -/
def FS.osRemove (fs : FS) (p : String) : Except String FS :=
  if p ∈ fs.files then
    .ok { fs with files := fs.files.filter (fun q => q ≠ p) }
  else
    .error "IsADirectoryError-or-FileNotFoundError"

/-- `utils.cleanup_files(*file_paths)` (utils.py lines 824-832): for each
path, if it exists, try `os.remove` on it; every exception is caught and
only logged, so a failing removal (in particular removal of a directory)
leaves the filesystem unchanged and the loop continues. -/
def cleanup_files (fs : FS) (file_paths : List String) : FS :=
  file_paths.foldl
    (fun acc p =>
      if acc.pathExists p then
        match acc.osRemove p with
        | .ok acc' => acc'
        | .error _ => acc
      else acc)
    fs

/-! ## Job model (job_manager.py)

`JobStatus` and the `Job` dataclass.  The wall-clock fields
`created_at`/`updated_at` are not modelled (they carry no logic).
Seconds are modelled by rationals. -/

inductive JobStatus where
  | queued
  | downloading
  | processing
  | transcribing
  | trimming
  | completed
  | failed
deriving DecidableEq, Repr

/-- The `result` payload built by `_process_trim_job` on completion
(`download_id`, `message`, `original_duration`, `trimmed_duration`,
`file_path`). -/
structure JobResult where
  download_id : String
  message : String
  original_duration : Option ℚ
  trimmed_duration : ℚ
  file_path : String
deriving DecidableEq, Repr

structure Job where
  id : String
  status : JobStatus
  progress : ℤ
  message : String
  result : Option JobResult := none
  error : Option String := none
  job_type : String := "trim"
  url : String := ""
  start_time : ℚ := 0
  end_time : ℚ := 0
  vertical_format : Bool := false
  add_subtitles : Bool := false
  ai_provider : String := "openai"
  temp_dir : Option String := none
  file_paths : List String := []
deriving DecidableEq, Repr

/-- The `JobManager.jobs` dict, as an association list keyed by job id. -/
abbrev Jobs := List (String × Job)

def lookupJob : Jobs → String → Option Job
  | [], _ => none
  | p :: rest, job_id => if p.1 = job_id then some p.2 else lookupJob rest job_id

/-- Apply a mutation to the job stored under `job_id` (Python mutates the
`Job` object found in the dict in place; absent ids are untouched). -/
def mapJob : Jobs → String → (Job → Job) → Jobs
  | [], _, _ => []
  | p :: rest, job_id, f =>
      (if p.1 = job_id then (p.1, f p.2) else p) :: mapJob rest job_id f

/-- The field updates `JobManager.update_job` (job_manager.py lines
87-106) performs on the job object it found.  Python truthiness is
preserved: a status enum value and a non-`None` result dict are truthy,
a message or error equal to `""` is falsy and ignored, `progress` is
tested with `is not None`.  The `error` branch runs last and also forces
`status = FAILED`. -/
def apply_job_update (job : Job) (status : Option JobStatus) (progress : Option ℤ)
    (message : Option String) (result : Option JobResult)
    (error : Option String) : Job :=
  let job := match status with
    | some s => { job with status := s }
    | none => job
  let job := match progress with
    | some p => { job with progress := p }
    | none => job
  let job := match message with
    | some m => if m ≠ "" then { job with message := m } else job
    | none => job
  let job := match result with
    | some r => { job with result := some r }
    | none => job
  match error with
    | some e => if e ≠ "" then { job with error := some e, status := .failed } else job
    | none => job

def update_job (jobs : Jobs) (job_id : String)
    (status : Option JobStatus) (progress : Option ℤ)
    (message : Option String) (result : Option JobResult)
    (error : Option String) : Jobs :=
  mapJob jobs job_id
    (fun job => apply_job_update job status progress message result error)

def jobStatus (jobs : Jobs) (job_id : String) : Option JobStatus :=
  (lookupJob jobs job_id).map (·.status)

def jobError (jobs : Jobs) (job_id : String) : Option (Option String) :=
  (lookupJob jobs job_id).map (·.error)

/-! ## Transcripts -/

/-- `TranscriptSegment` `{start, end, text}` (the Python key `end` is a
Lean keyword and is rendered `stop`). -/
structure TranscriptSeg where
  start : ℚ
  stop : ℚ
  text : String
deriving DecidableEq, Repr

/-- A transcription result dict `{text, segments}`; the sampled strategy
additionally stores `"sampled": True`, every other path leaves the key
absent, which reads back as `False`. -/
structure Transcript where
  text : String
  segments : List TranscriptSeg
  sampled : Bool := false
deriving DecidableEq, Repr

/-! ## The trim pipeline (`JobManager._process_trim_job`)

External effects are recorded in a `TrimOracle`: the outcome of
`download_youtube_video`, `get_video_duration`, the ffmpeg audio-segment
extraction, `transcribe_audio_with_openai`, and the transform
(`trim_video` or `trim_video_vertical`, chosen by `vertical_format`;
both either produce the output file or raise, so one field models
either). -/

structure TrimOracle where
  download : Except String String
  duration : Option ℚ
  extract_audio : Except String Unit
  transcribe : Except String Transcript
  transform : Except String Unit
deriving DecidableEq, Repr

/-- The `except Exception` handler of `_process_trim_job` (lines
210-216) and `_process_hooks_job` (lines 255-261): write the error into
the job via `update_job` (which forces `status = FAILED`), then run
`cleanup_files(job.temp_dir)` on the scratch directory. -/
def trim_fail_handler (jobs : Jobs) (job_id : String) (fs : FS) (msg : String) :
    Jobs × FS :=
  let error_msg := "Processing failed: " ++ msg
  let jobs := update_job jobs job_id none none (some error_msg) none (some error_msg)
  let fs := match (lookupJob jobs job_id).bind (·.temp_dir) with
    | some td => cleanup_files fs [td]
    | none => fs
  (jobs, fs)

/-- The timestamp validation
`if original_duration and job.end_time > original_duration:` of
`_process_trim_job` (line 154) — a `None` or `0.0` duration is falsy in
Python and skips the check. -/
def duration_check_fails (original_duration : Option ℚ) (end_time : ℚ) : Bool :=
  match original_duration with
  | some d => decide (d ≠ 0) && decide (end_time > d)
  | none => false

/-- Tail of `_process_trim_job` (lines 183-208): the trimming phase and
completion.  `o.transform` stands for the chosen transform call. -/
def process_trim_finish (jobs : Jobs) (job_id temp_dir : String)
    (o : TrimOracle) (fs : FS) (job0 : Job) (original_duration : Option ℚ) :
    Except String (Jobs × FS) :=
  let jobs := update_job jobs job_id (some .trimming) (some 80)
    (some "Trimming video...") none none
  let output_path := temp_dir ++ "/trimmed_" ++ job_id ++ ".mp4"
  match o.transform with
  | .error msg => .ok (trim_fail_handler jobs job_id fs msg)
  | .ok _ =>
    let fs := fs.addFile output_path
    let jobs := mapJob jobs job_id
      (fun j => { j with file_paths := j.file_paths ++ [output_path] })
    let result : JobResult :=
      { download_id := job_id
        message := "Video trimmed successfully"
        original_duration := original_duration
        trimmed_duration := job0.end_time - job0.start_time
        file_path := output_path }
    let jobs := update_job jobs job_id (some .completed) (some 100)
      (some "Video ready for download!") (some result) none
    .ok (jobs, fs)

/-- `JobManager._process_trim_job` (job_manager.py lines 132-216).
The initial `job = self.jobs[job_id]` sits outside the `try` block, so a
missing id raises `KeyError` past the routine (the `.error` result);
everything after it is inside the `try` whose handler is
`trim_fail_handler`.  `temp_dir` is the directory `tempfile.mkdtemp`
creates.  Error-message float formatting is elided. -/
def process_trim_job (jobs : Jobs) (job_id temp_dir : String)
    (o : TrimOracle) (fs : FS) : Except String (Jobs × FS) :=
  match lookupJob jobs job_id with
  | none => .error ("KeyError: " ++ job_id)
  | some job0 =>
    let jobs := update_job jobs job_id (some .downloading) (some 10)
      (some "Downloading video...") none none
    let fs := fs.addDir temp_dir
    let jobs := mapJob jobs job_id (fun j => { j with temp_dir := some temp_dir })
    match o.download with
    | .error msg => .ok (trim_fail_handler jobs job_id fs msg)
    | .ok fname =>
      let downloaded_file := temp_dir ++ "/" ++ fname
      let fs := fs.addFile downloaded_file
      let jobs := mapJob jobs job_id
        (fun j => { j with file_paths := j.file_paths ++ [downloaded_file] })
      let jobs := update_job jobs job_id none (some 30)
        (some "Video downloaded, getting duration...") none none
      let original_duration := o.duration
      if duration_check_fails original_duration job0.end_time then
        .ok (trim_fail_handler jobs job_id fs "End time exceeds video duration")
      else
        let jobs := update_job jobs job_id (some .processing) (some 50)
          (some "Processing video...") none none
        if job0.add_subtitles then
          let jobs := update_job jobs job_id (some .transcribing) (some 60)
            (some "Generating subtitles...") none none
          let segment_audio := temp_dir ++ "/segment_audio.wav"
          match o.extract_audio with
          | .error msg => .ok (trim_fail_handler jobs job_id fs msg)
          | .ok _ =>
            let fs := fs.addFile segment_audio
            match o.transcribe with
            | .error msg => .ok (trim_fail_handler jobs job_id fs msg)
            | .ok _ =>
              let jobs := mapJob jobs job_id
                (fun j => { j with file_paths := j.file_paths ++ [segment_audio] })
              process_trim_finish jobs job_id temp_dir o fs job0 original_duration
        else
          process_trim_finish jobs job_id temp_dir o fs job0 original_duration

/-! ## The Celery task `process_video_trim_async` (async_processor.py)

The database row `VideoJob` is reduced to its status and error message;
the second component of the result is the task's outcome as seen by the
Celery worker: `.ok` on success, `.error` when an exception escapes the
task body (a `self.retry(...)` or the final
`raise Exception("Video processing failed: ...")`). -/

structure DbJob where
  status : String
  error_message : Option String
deriving DecidableEq, Repr

inductive AsyncErr where
  | retry (countdown : ℕ)
  | failure (msg : String)
deriving DecidableEq, Repr

structure AsyncOracle where
  db_job : Option DbJob
  download : Except String String
  duration : Option ℚ
  transcribe : Except String Transcript
  transform : Except String String
deriving DecidableEq, Repr

/-- `"needle" in str(e).lower()` membership test. -/
def str_contains (s sub : String) : Bool := (s.splitOn sub).length > 1

def is_transient (msg : String) : Bool :=
  str_contains msg.toLower "network" || str_contains msg.toLower "timeout"

/-- The `except Exception` handler of `process_video_trim_async` (lines
162-184): record the failure on the db row when it was found, clean up,
then either `self.retry(...)` (transient message, retries remain) or
re-raise — the task never swallows the failure. -/
def async_fail (db : Option DbJob) (retries max_retries : ℕ) (msg : String) :
    Option DbJob × Except AsyncErr String :=
  let db := db.map (fun j => { j with status := "failed", error_message := some msg })
  if retries < max_retries && is_transient msg then
    (db, .error (.retry (60 * (retries + 1))))
  else
    (db, .error (.failure ("Video processing failed: " ++ msg)))

/-- `process_video_trim_async` (async_processor.py lines 59-188); the
audio-segment extraction of the subtitle branch is folded into the
`transcribe` oracle outcome. -/
def process_video_trim_async (job_id : String) (add_subtitles : Bool)
    (o : AsyncOracle) (retries max_retries : ℕ) :
    Option DbJob × Except AsyncErr String :=
  match o.db_job with
  | none => async_fail none retries max_retries ("Job " ++ job_id ++ " not found")
  | some vj =>
    let vj := { vj with status := "processing" }
    match o.download with
    | .error msg => async_fail (some vj) retries max_retries msg
    | .ok _ =>
      match (if add_subtitles then o.transcribe.map some else .ok none) with
      | .error msg => async_fail (some vj) retries max_retries msg
      | .ok _ =>
        match o.transform with
        | .error msg => async_fail (some vj) retries max_retries msg
        | .ok trimmed_file =>
          (some { vj with status := "completed" }, .ok trimmed_file)

/-! ## Hook Analyzer response validation (utils.py)

`_analyze_with_openai` (lines 693-737) and `_analyze_with_anthropic`
(lines 739-785) share a verbatim-identical validation block, modelled
once.  The input is the JSON array recovered from the LLM response
after `json.loads`: each element is either not a dict, or a dict whose
`start`/`end`/`title`/`reason` keys may each be present or absent
(values already coerced the way `int(...)`/`str(...)` would). -/

/-- Python string slicing `s[:n]` (by characters). -/
def str_truncate (s : String) (n : ℕ) : String := ⟨s.data.take n⟩

inductive RawHook where
  | notDict
  | dict (start? : Option ℤ) (stop? : Option ℤ)
      (title? : Option String) (reason? : Option String)
deriving DecidableEq, Repr

/-- A validated hook `{start, end, title, reason}` (`end` rendered
`stop`). -/
structure Hook where
  start : ℤ
  stop : ℤ
  title : String
  reason : String
deriving DecidableEq, Repr

/-- The validation loop: keep dicts having all of `start`, `end`,
`title`; truncate `title` to 100 and `reason` (default `""`) to 200
characters; finally `[:5]`.  No check relates `start` and `stop`. -/
def validate_hooks (hooks : List RawHook) : List Hook :=
  (hooks.filterMap (fun hook =>
    match hook with
    | .notDict => none
    | .dict s e t r =>
      match s, e, t with
      | some s, some e, some t =>
          some { start := s, stop := e,
                 title := str_truncate t 100,
                 reason := str_truncate (r.getD "") 200 }
      | _, _, _ => none)).take 5

/-! ## Subtitle Formatter (utils.py `create_subtitle_file`, lines 185-225) -/

/-- Python `max(a, b)` on numbers (spelled out so that it evaluates by
kernel reduction; equal to `max` by `py_max_eq`). -/
def py_max (a b : ℚ) : ℚ := if a ≤ b then b else a

/-- Python `min(a, b)` on numbers. -/
def py_min (a b : ℚ) : ℚ := if a ≤ b then a else b

/-- Outcome of a `subprocess.run(..., check=True)` call that was not
given a timeout: it either returns (exit code 0) or raises
`CalledProcessError`. -/
structure CmdOutcome where
  exitOk : Bool
  stderr : String
deriving DecidableEq, Repr

/-- `utils.trim_video` (lines 338-364).  After running ffmpeg it only
checks `os.path.exists(output_path)`; `output_size` is deliberately a
parameter the function ignores — the source contains no size
validation. -/
def trim_video (run : CmdOutcome) (output_exists : Bool) (output_size : ℕ)
    (output_path : String) : Except String String :=
  if !run.exitOk then
    .error ("Failed to trim video: " ++ run.stderr)
  else if !output_exists then
    .error "Failed to trim video: Trimmed video file was not created"
  else
    .ok output_path

/-- The `timeout` argument each entry point passes to `subprocess.run`:
`utils.trim_video` (line 352) passes none. -/
def trim_video_subprocess_timeout : Option ℕ := none

/-- `utils.trim_video_vertical` (line 317) passes none. -/
def trim_video_vertical_subprocess_timeout : Option ℕ := none

/-- `utils_optimized.trim_video_vertical_optimized` (line 229) passes
its `processing_timeout` argument (default 1800 s). -/
def trim_video_vertical_optimized_subprocess_timeout (processing_timeout : ℕ) :
    Option ℕ := some processing_timeout

/-- Outcome of a `subprocess.run(..., timeout=..., check=True)` call. -/
inductive RunOutcome where
  | completed (exitOk : Bool) (stderr : String)
  | timedOut
deriving DecidableEq, Repr

/-- `ProcessingTimeoutError` is a distinct exception class from the
generic `Exception` used for every other failure. -/
inductive TransformErr where
  | processingTimeout (msg : String)
  | generic (msg : String)
deriving DecidableEq, Repr

/-- `trim_video_vertical_optimized` (utils_optimized.py lines 133-254),
from the encode invocation on: on `TimeoutExpired` the handler removes
the partial output file if present and raises `ProcessingTimeoutError`;
otherwise existence and a 100KB size floor are checked.  (`os.remove`
on the handler path acts on the encoder's output file, never a
directory.) -/
def trim_video_vertical_optimized (run : RunOutcome) (output_exists : Bool)
    (output_size : ℕ) (fs : FS) (output_path : String)
    (processing_timeout : ℕ) : FS × Except TransformErr String :=
  match run with
  | .timedOut =>
    let fs := if fs.pathExists output_path then
        { fs with files := fs.files.filter (fun q => q ≠ output_path) }
      else fs
    (fs, .error (.processingTimeout
      ("Video processing timed out after " ++ toString processing_timeout ++ " seconds")))
  | .completed exitOk stderr =>
    if !exitOk then
      (fs, .error (.generic ("Failed to process video: " ++ stderr)))
    else if !output_exists then
      (fs, .error (.generic "Failed to process video: Processed video file was not created"))
    else if output_size < 1024 * 100 then
      (fs, .error (.generic "Failed to process video: Output file is too small, processing may have failed"))
    else
      (fs, .ok output_path)

/-! ## Transcriber: chunked transcription (utils.py lines 394-434, 493-553) -/

/-- What one chunk contributes: the outcome of the per-chunk ffprobe
duration query (run without `check=True`: `some d` when it exits 0 with
duration `d`, `none` when `returncode != 0`) and the Whisper
transcription of that chunk. -/
structure ChunkTranscript where
  probe : Option ℚ
  segments : List TranscriptSeg
  text : String
deriving DecidableEq, Repr

/-- The accumulation loop of `transcribe_large_audio_with_chunks`
(utils.py lines 507-537): segments of chunk `i` are shifted by
`cumulative_time`; then, only `if result.returncode == 0`,
`cumulative_time` grows by the chunk's ffprobe duration — a failed
ffprobe silently skips the increment, so every later chunk is
under-shifted.  (The source skips the ffprobe call after the last
chunk; the final `cumulative_time` is dead either way.) -/
def rebase_chunk_segments : List ChunkTranscript → ℚ → List TranscriptSeg
  | [], _ => []
  | c :: rest, cumulative_time =>
      c.segments.map (fun s =>
        { start := s.start + cumulative_time,
          stop := s.stop + cumulative_time,
          text := s.text })
      ++ rebase_chunk_segments rest
          (match c.probe with
            | some chunk_duration => cumulative_time + chunk_duration
            | none => cumulative_time)

def transcribe_large_audio_with_chunks (chunks : List ChunkTranscript) : Transcript :=
  { text := String.intercalate " " (chunks.map (·.text))
    segments := rebase_chunk_segments chunks 0 }

/-- `num_chunks = max(2, int((file_size / max_size_bytes) * 1.2))`
(utils.py line 414; the float product is modelled exactly as 6/5). -/
def num_chunks (file_size max_size_bytes : ℕ) : ℕ :=
  max 2 ((file_size * 6) / (max_size_bytes * 5))

/-- The chunk time windows cut by `split_audio_for_transcription`:
chunk `i` starts at `i * chunk_duration` and lasts `chunk_duration =
total_duration / num_chunks`. -/
def split_chunk_windows (total_duration : ℚ) (n : ℕ) : List (ℚ × ℚ) :=
  let chunk_duration := total_duration / n
  (List.range n).map (fun (i : ℕ) =>
    ((i : ℚ) * chunk_duration, (i : ℚ) * chunk_duration + chunk_duration))

/-- `split_audio_for_transcription` (lines 394-434): a file at or below
the byte threshold is returned unsplit (one window covering
everything); a larger one is cut into `num_chunks` windows. -/
def split_audio_for_transcription (file_size : ℕ) (max_size_mb : ℕ)
    (total_duration : ℚ) : List (ℚ × ℚ) :=
  let max_size_bytes := max_size_mb * 1024 * 1024
  if file_size ≤ max_size_bytes then [(0, total_duration)]
  else split_chunk_windows total_duration (num_chunks file_size max_size_bytes)

/-! ## Transcriber: strategy dispatch and strategic sampling
(utils.py lines 440-473 and 555-647) -/

inductive TranscribeStrategy where
  | sampled
  | chunked
  | direct
deriving DecidableEq, Repr

/-- The dispatch of `transcribe_audio_with_openai`: a `None` duration
makes the `f"... {video_duration:.1f} ..."` log line (line 454) raise
`TypeError`, caught by the enclosing handler; otherwise hook-detection
calls on material longer than 600 s use strategic sampling, files over
20MB use chunking, and everything else is transcribed directly. -/
def transcribe_audio_with_openai_strategy (for_hooks : Bool)
    (video_duration : Option ℚ) (file_size : ℕ) :
    Except String TranscribeStrategy :=
  match video_duration with
  | none => .error "Failed to transcribe audio: unsupported format string passed to NoneType"
  | some d =>
    .ok (if for_hooks && decide (d > 600) then .sampled
         else if file_size > 20 * 1024 * 1024 then .chunked
         else .direct)

/-- The strategic sample windows chosen by
`transcribe_sampled_segments_for_hooks` (lines 561-581): the opening
two minutes, three one-minute windows at 30%/50%/70% for material over
ten minutes, and a closing window for material over five minutes. -/
def segments_to_sample (video_duration : ℚ) : List (ℚ × ℚ) :=
  [(0, py_min 120 video_duration)]
  ++ (if video_duration > 600 then
        [(3/10 * video_duration, 3/10 * video_duration + 60),
         (5/10 * video_duration, 5/10 * video_duration + 60),
         (7/10 * video_duration, 7/10 * video_duration + 60)]
      else [])
  ++ (if video_duration > 300 then
        [(py_max (video_duration - 120) (8/10 * video_duration), video_duration)]
      else [])

/-- Per-window outcomes of the sampling loop: whether the ffmpeg
extraction of window `i` succeeded, and the Whisper result for it
(failures of either kind make the loop `continue`). -/
structure SampleOracle where
  extract_ok : ℕ → Bool
  transcribe : ℕ → Except String (String × List TranscriptSeg)

/-- `transcribe_sampled_segments_for_hooks` (lines 555-651): transcribe
each sample window that survives extraction and transcription, re-base
its segments by the window start, and tag the combined result
`"sampled": True`.  (The `[Segment Xs-Ys]` text prefixes are elided.) -/
def transcribe_sampled_segments_for_hooks (video_duration : ℚ)
    (o : SampleOracle) : Transcript :=
  let windows := segments_to_sample video_duration
  let collected := windows.enum.filterMap (fun iw =>
    if o.extract_ok iw.1 then
      match o.transcribe iw.1 with
      | .ok t => some (iw.2, t)
      | .error _ => none
    else none)
  { text := String.intercalate " " (collected.map (fun wt => wt.2.1))
    segments := collected.flatMap (fun wt => wt.2.2.map (fun s =>
      { start := s.start + wt.1.1, stop := s.stop + wt.1.1, text := s.text }))
    sampled := true }

/-! ## Vertical target resolution (C9) -/

/-- `utils.trim_video_vertical` (lines 249-254): the target is the
constants `target_width = 1080`, `target_height = 1920`, whatever the
probed input dimensions are. -/
def trim_video_vertical_target (width height : ℕ) : ℕ × ℕ := (1080, 1920)

/-- `utils_optimized.trim_video_vertical_optimized` (lines 156-160):
inputs at most 720 pixels wide get the smaller 720×1280 target. -/
def trim_video_vertical_optimized_target (width : ℕ) : ℕ × ℕ :=
  if width ≤ 720 then (720, 1280) else (1080, 1920)

/-! ## Helper lemmas -/

theorem lookupJob_mapJob (jobs : Jobs) (job_id k : String) (f : Job → Job) :
    lookupJob (mapJob jobs job_id f) k =
      if k = job_id then (lookupJob jobs k).map f else lookupJob jobs k := by
  induction jobs with
  | nil => simp [lookupJob, mapJob]
  | cons hd tl ih =>
    simp only [mapJob, lookupJob]
    by_cases h1 : hd.1 = job_id
    · by_cases h2 : k = job_id
      · simp [h1, h2, lookupJob]
      · have h3 : ¬ hd.1 = k := fun h => h2 (h ▸ h1)
        have h4 : ¬ job_id = k := fun h => h2 h.symm
        simp [h1, h2, h3, h4, lookupJob, ih]
    · by_cases h3 : hd.1 = k
      · have h2 : ¬ k = job_id := fun h => h1 (h3.symm ▸ h)
        simp [h1, h2, h3, lookupJob]
      · simp [h1, h3, lookupJob, ih]

theorem lookupJob_mapJob_isSome (jobs : Jobs) (job_id k : String) (f : Job → Job) :
    (lookupJob (mapJob jobs job_id f) k).isSome = (lookupJob jobs k).isSome := by
  rw [lookupJob_mapJob]
  by_cases h : k = job_id <;> simp [h]

theorem lookupJob_update_job (jobs : Jobs) (job_id k : String)
    (st : Option JobStatus) (pr : Option ℤ) (ms : Option String)
    (rs : Option JobResult) (er : Option String) :
    (lookupJob (update_job jobs job_id st pr ms rs er) k).isSome =
      (lookupJob jobs k).isSome := by
  rw [update_job, lookupJob_mapJob_isSome]

theorem py_max_eq (a b : ℚ) : py_max a b = max a b := by
  unfold py_max
  by_cases h : a ≤ b
  · rw [if_pos h, max_eq_right h]
  · rw [if_neg h, max_eq_left (le_of_not_le h)]

theorem py_min_eq (a b : ℚ) : py_min a b = min a b := by
  unfold py_min
  by_cases h : a ≤ b
  · rw [if_pos h, min_eq_left h]
  · rw [if_neg h, min_eq_right (le_of_not_le h)]

theorem append_ne_empty_left (s t : String) (h : s.length ≠ 0) : s ++ t ≠ "" := by
  intro he
  apply h
  have hl := congrArg String.length he
  rw [String.length_append] at hl
  simpa using Nat.eq_zero_of_add_eq_zero_right hl

theorem str_truncate_length_le (s : String) (n : ℕ) :
    (str_truncate s n).length ≤ n := by
  show (s.data.take n).length ≤ n
  rw [List.length_take]
  exact min_le_left n s.data.length

theorem apply_job_update_error (j : Job) (st : Option JobStatus) (pr : Option ℤ)
    (ms : Option String) (rs : Option JobResult) (e : String) (he : e ≠ "") :
    (apply_job_update j st pr ms rs (some e)).status = .failed ∧
      (apply_job_update j st pr ms rs (some e)).error = some e := by
  simp only [apply_job_update]
  rw [if_pos he]
  exact ⟨rfl, rfl⟩

theorem apply_job_update_status (j : Job) (st : JobStatus) (pr : Option ℤ)
    (ms : Option String) (rs : Option JobResult) :
    (apply_job_update j (some st) pr ms rs none).status = st := by
  cases pr <;> cases ms <;> cases rs <;> simp only [apply_job_update] <;>
    first
      | rfl
      | (split <;> rfl)

/-- After a non-empty `error` update the stored job is failed and keeps
that error message, regardless of the other arguments. -/
theorem update_job_error_spec (jobs : Jobs) (job_id : String)
    (st : Option JobStatus) (pr : Option ℤ) (ms : Option String)
    (rs : Option JobResult) (e : String)
    (h : (lookupJob jobs job_id).isSome) (he : e ≠ "") :
    jobStatus (update_job jobs job_id st pr ms rs (some e)) job_id = some .failed ∧
      jobError (update_job jobs job_id st pr ms rs (some e)) job_id = some (some e) := by
  obtain ⟨j0, hl⟩ := Option.isSome_iff_exists.mp h
  have hs := apply_job_update_error j0 st pr ms rs e he
  simp only [jobStatus, jobError, update_job]
  rw [lookupJob_mapJob, if_pos rfl, hl]
  simp [hs.1, hs.2]

/-- A status-only update (no error) stores exactly that status. -/
theorem update_job_status_spec (jobs : Jobs) (job_id : String)
    (st : JobStatus) (pr : Option ℤ) (ms : Option String) (rs : Option JobResult)
    (h : (lookupJob jobs job_id).isSome) :
    jobStatus (update_job jobs job_id (some st) pr ms rs none) job_id = some st := by
  obtain ⟨j0, hl⟩ := Option.isSome_iff_exists.mp h
  have hs := apply_job_update_status j0 st pr ms rs
  simp only [jobStatus, update_job]
  rw [lookupJob_mapJob, if_pos rfl, hl]
  simp [hs]

/-- The failure handler of `_process_trim_job` always leaves the job
failed with the wrapped error message recorded. -/
theorem trim_fail_handler_spec (jobs : Jobs) (job_id : String) (fs : FS) (msg : String)
    (h : (lookupJob jobs job_id).isSome) :
    jobStatus (trim_fail_handler jobs job_id fs msg).1 job_id = some .failed ∧
      jobError (trim_fail_handler jobs job_id fs msg).1 job_id =
        some (some ("Processing failed: " ++ msg)) := by
  have hne : ("Processing failed: " ++ msg) ≠ "" :=
    append_ne_empty_left _ _ (by decide)
  simpa only [trim_fail_handler] using
    update_job_error_spec jobs job_id none none
      (some ("Processing failed: " ++ msg)) none _ h hne

/-- Whatever the transform outcome, the trimming/completion tail keeps
the job record in a terminal state without raising. -/
theorem process_trim_finish_spec (jobs : Jobs) (job_id temp_dir : String)
    (o : TrimOracle) (fs : FS) (job0 : Job) (d : Option ℚ)
    (h : (lookupJob jobs job_id).isSome = true) :
    ∃ out : Jobs × FS,
      process_trim_finish jobs job_id temp_dir o fs job0 d = .ok out ∧
      (jobStatus out.1 job_id = some .completed ∨
        (jobStatus out.1 job_id = some .failed ∧
          ∃ e, jobError out.1 job_id = some (some e))) := by
  simp only [process_trim_finish]
  cases htf : o.transform with
  | error msg =>
    refine ⟨_, rfl, Or.inr ⟨(trim_fail_handler_spec _ job_id _ msg ?_).1, _,
      (trim_fail_handler_spec _ job_id _ msg ?_).2⟩⟩ <;>
    · simp only [lookupJob_update_job]
      exact h
  | ok u =>
    refine ⟨_, rfl, Or.inl ?_⟩
    apply update_job_status_spec
    simp only [lookupJob_mapJob_isSome, lookupJob_update_job]
    exact h

/-! ## Claims -/

/-- C1: a trim job that fails after its scratch directory was created
does NOT end with the scratch directory removed.  At the concrete
failing input below (download succeeds, probed duration 10 s, requested
end 60 s, so the timestamp validation raises `ValueError`), the job
reaches status failed but the handler's `cleanup_files(temp_dir)` —
which `os.remove`s regular files only and swallows the resulting
`IsADirectoryError` — leaves both the scratch directory and the
downloaded file inside it on disk. -/
theorem failed_trim_job_scratch_dir_survives :
    (Except.map
        (fun out : Jobs × FS =>
          (jobStatus out.1 "j1",
           out.2.pathExists "/tmp/job1",
           out.2.pathExists "/tmp/job1/video.mp4"))
        (process_trim_job
          [("j1", { id := "j1", status := .queued, progress := 0,
                    message := "Job created, waiting to start...",
                    start_time := 30, end_time := 60 })]
          "j1" "/tmp/job1"
          { download := .ok "video.mp4", duration := some 10,
            extract_audio := .ok (),
            transcribe := .ok { text := "", segments := [] },
            transform := .ok () }
          { files := [], dirs := [] })) =
      .ok (some .failed, true, true) := by
  decide

/-- C2 (counterexample): the Celery-based trim routine
`process_video_trim_async` does propagate failures to its caller: with
a failing download it records the failure on the db row but then
re-raises, so the queue worker observes an exception, not only job
state. -/
theorem async_trim_failure_escapes :
    (process_video_trim_async "j1" false
        { db_job := some { status := "pending", error_message := none },
          download := .error "Failed to download video: boom",
          duration := some 100,
          transcribe := .ok { text := "", segments := [] },
          transform := .ok "out.mp4" } 3 3).2 =
      .error (.failure
        "Video processing failed: Failed to download video: boom") := by
  decide

/-- C2 (amended): every exception raised inside the in-process
JobManager trim routine is caught at the routine boundary: for every
job id present in the store and every outcome of the external steps,
the routine returns normally and the job ends either completed, or
failed with the error message recorded.  (The Celery-based variant
instead re-raises after recording the failure, and a job id absent from
the store raises `KeyError` from the lookup that sits outside the `try`
block.) -/
theorem trim_job_catches_all_errors (jobs : Jobs) (job_id temp_dir : String)
    (o : TrimOracle) (fs : FS) (h : (lookupJob jobs job_id).isSome = true) :
    ∃ out : Jobs × FS,
      process_trim_job jobs job_id temp_dir o fs = .ok out ∧
      (jobStatus out.1 job_id = some .completed ∨
        (jobStatus out.1 job_id = some .failed ∧
          ∃ e, jobError out.1 job_id = some (some e))) := by
  obtain ⟨job0, hl⟩ := Option.isSome_iff_exists.mp h
  simp only [process_trim_job, hl]
  cases hdl : o.download with
  | error msg =>
    refine ⟨_, rfl, Or.inr ⟨(trim_fail_handler_spec _ job_id _ msg ?_).1, _,
      (trim_fail_handler_spec _ job_id _ msg ?_).2⟩⟩ <;>
    · simp only [lookupJob_mapJob_isSome, lookupJob_update_job]
      exact h
  | ok fname =>
    cases hdc : duration_check_fails o.duration job0.end_time with
    | true =>
      refine ⟨_, rfl, Or.inr ⟨(trim_fail_handler_spec _ job_id _ _ ?_).1, _,
        (trim_fail_handler_spec _ job_id _ _ ?_).2⟩⟩ <;>
      · simp only [lookupJob_mapJob_isSome, lookupJob_update_job]
        exact h
    | false =>
      cases hsub : job0.add_subtitles with
      | false =>
        apply process_trim_finish_spec
        simp only [lookupJob_mapJob_isSome, lookupJob_update_job]
        exact h
      | true =>
        cases hext : o.extract_audio with
        | error msg =>
          refine ⟨_, rfl, Or.inr ⟨(trim_fail_handler_spec _ job_id _ msg ?_).1, _,
            (trim_fail_handler_spec _ job_id _ msg ?_).2⟩⟩ <;>
          · simp only [lookupJob_mapJob_isSome, lookupJob_update_job]
            exact h
        | ok u =>
          cases htr : o.transcribe with
          | error msg =>
            refine ⟨_, rfl, Or.inr ⟨(trim_fail_handler_spec _ job_id _ msg ?_).1, _,
              (trim_fail_handler_spec _ job_id _ msg ?_).2⟩⟩ <;>
            · simp only [lookupJob_mapJob_isSome, lookupJob_update_job]
              exact h
          | ok t =>
            apply process_trim_finish_spec
            simp only [lookupJob_mapJob_isSome, lookupJob_update_job]
            exact h

/-- C2 (witness): the amended theorem applied at a concrete one-job
store with a fully successful oracle. -/
theorem trim_job_catches_all_errors_witness :
    ∃ out : Jobs × FS,
      process_trim_job
        [("j2", { id := "j2", status := .queued, progress := 0,
                  message := "created", start_time := 0, end_time := 30 })]
        "j2" "/tmp/job2"
        { download := .ok "video.mp4", duration := some 100,
          extract_audio := .ok (),
          transcribe := .ok { text := "", segments := [] },
          transform := .ok () }
        { files := [], dirs := [] } = .ok out ∧
      (jobStatus out.1 "j2" = some .completed ∨
        (jobStatus out.1 "j2" = some .failed ∧
          ∃ e, jobError out.1 "j2" = some (some e))) :=
  trim_job_catches_all_errors
    [("j2", { id := "j2", status := .queued, progress := 0,
              message := "created", start_time := 0, end_time := 30 })]
    "j2" "/tmp/job2"
    { download := .ok "video.mp4", duration := some 100,
      extract_audio := .ok (),
      transcribe := .ok { text := "", segments := [] },
      transform := .ok () }
    { files := [], dirs := [] } (by decide)

/-- C3 (counterexample): the Hook Analyzer's validation passes `start`
and `end` through unchecked — a parsed response containing a hook with
`start = 50 > end = 30` is returned as-is, so not every returned hook
satisfies `0 ≤ start < end`. -/
theorem validate_hooks_no_order_check :
    (validate_hooks [.dict (some 50) (some 30) (some "clip") none]).all
      (fun h => decide (0 ≤ h.start ∧ h.start < h.stop)) = false := by
  decide

/-- C3 (amended): for every parsed LLM response, the Hook Analyzer
returns at most 5 hooks, and every returned hook has a title of at most
100 characters and a reason of at most 200 characters; `start` and `end`
are coerced to integers but pass through with no ordering or sign
check. -/
theorem validate_hooks_bounds (raw : List RawHook) (h : Hook)
    (hmem : h ∈ validate_hooks raw) :
    (validate_hooks raw).length ≤ 5 ∧
      h.title.length ≤ 100 ∧ h.reason.length ≤ 200 := by
  constructor
  · unfold validate_hooks
    rw [List.length_take]
    exact min_le_left _ _
  · unfold validate_hooks at hmem
    obtain ⟨x, hx, hfx⟩ := List.mem_filterMap.mp (List.take_subset _ _ hmem)
    cases x with
    | notDict => simp at hfx
    | dict s e t r =>
      cases s with
      | none => simp at hfx
      | some sv =>
        cases e with
        | none => simp at hfx
        | some ev =>
          cases t with
          | none => simp at hfx
          | some tv =>
            injection hfx with hfx
            subst hfx
            exact ⟨str_truncate_length_le _ _, str_truncate_length_le _ _⟩

/-- C3 (witness): the amended bound theorem applied at a concrete parsed
response and returned hook. -/
theorem validate_hooks_bounds_witness :
    (validate_hooks [.dict (some 0) (some 10) (some "t") (some "r")]).length ≤ 5 ∧
      (Hook.mk 0 10 "t" "r").title.length ≤ 100 ∧
      (Hook.mk 0 10 "t" "r").reason.length ≤ 200 :=
  validate_hooks_bounds [.dict (some 0) (some 10) (some "t") (some "r")]
    (Hook.mk 0 10 "t" "r") (by decide)

/-- C5 (counterexample): `trim_video` returns successfully even when the
output file is only 10 bytes (< 1KB): after a clean ffmpeg exit it only
checks existence, never size. -/
theorem trim_video_returns_tiny_output :
    trim_video { exitOk := true, stderr := "" } true 10 "trimmed.mp4" =
        .ok "trimmed.mp4" ∧ (10 : ℕ) < 1024 :=
  ⟨rfl, by decide⟩

/-- C5 (amended): `trim_video` raises whenever the encode exits non-zero
or the output file is missing, and succeeds exactly in the remaining
cases — the output size is never consulted, so an implausibly small
output is still returned as success. -/
theorem trim_video_success_iff (run : CmdOutcome) (output_exists : Bool)
    (output_size : ℕ) (output_path : String) :
    trim_video run output_exists output_size output_path = .ok output_path ↔
      run.exitOk = true ∧ output_exists = true := by
  cases run with
  | mk exitOk stderr => cases exitOk <;> cases output_exists <;> simp [trim_video]

/-- C6 (counterexample): the trim-only entry point `trim_video` and the
standard vertical entry point `trim_video_vertical` invoke the encode
command with no `timeout` argument at all, contradicting the claim that
both transform entry points run under an explicit wall-clock timeout. -/
theorem trim_entry_points_lack_timeout :
    trim_video_subprocess_timeout = none ∧
      trim_video_vertical_subprocess_timeout = none :=
  ⟨rfl, rfl⟩

/-- C6 (amended): only the optimized vertical entry point runs the
encode under an explicit timeout; there, a timeout deletes any partial
output file and raises `ProcessingTimeoutError`, a class distinct from
the generic failure.  The standard `trim_video` and
`trim_video_vertical` pass no timeout. -/
theorem transform_timeout_behavior (processing_timeout : ℕ)
    (output_exists : Bool) (output_size : ℕ) (fs : FS) (output_path : String) :
    trim_video_vertical_optimized_subprocess_timeout processing_timeout =
        some processing_timeout ∧
    (trim_video_vertical_optimized .timedOut output_exists output_size fs
        output_path processing_timeout).2 =
      .error (.processingTimeout ("Video processing timed out after " ++
        toString processing_timeout ++ " seconds")) ∧
    output_path ∉ (trim_video_vertical_optimized .timedOut output_exists
        output_size fs output_path processing_timeout).1.files ∧
    trim_video_subprocess_timeout = none ∧
    trim_video_vertical_subprocess_timeout = none := by
  refine ⟨rfl, rfl, ?_, rfl, rfl⟩
  by_cases hp : fs.pathExists output_path
  · simp [trim_video_vertical_optimized, hp, List.mem_filter]
  · have hnot : output_path ∉ fs.files := fun hmem =>
      hp (by simp [FS.pathExists, hmem])
    simp [trim_video_vertical_optimized, hp, hnot]

/-- C9 (counterexample): the standard vertical transform
`trim_video_vertical` targets 1080×1920 even for a 640×360 input, so a
lower-resolution input does get the larger target there. -/
theorem standard_vertical_ignores_input_width :
    trim_video_vertical_target 640 360 = (1080, 1920) ∧
      trim_video_vertical_target 640 360 ≠ (720, 1280) := by
  decide

/-- C9 (amended): the optimized vertical transform scales its target
with input quality — width ≤ 720 gets 720×1280, wider inputs get
1080×1920 — while the standard vertical transform always targets
1080×1920 regardless of input resolution. -/
theorem vertical_target_scales_with_input (width height : ℕ) :
    trim_video_vertical_target width height = (1080, 1920) ∧
    (width ≤ 720 → trim_video_vertical_optimized_target width = (720, 1280)) ∧
    (720 < width → trim_video_vertical_optimized_target width = (1080, 1920)) := by
  refine ⟨rfl, fun h => ?_, fun h => ?_⟩
  · simp [trim_video_vertical_optimized_target, h]
  · rw [trim_video_vertical_optimized_target, if_neg (by omega)]

/-- C9 (witness): the amended theorem applied at a 640×360 input and at
a 1080-wide input. -/
theorem vertical_target_scales_with_input_witness :
    trim_video_vertical_target 640 360 = (1080, 1920) ∧
      trim_video_vertical_optimized_target 640 = (720, 1280) ∧
      trim_video_vertical_optimized_target 1080 = (1080, 1920) :=
  ⟨(vertical_target_scales_with_input 640 360).1,
   (vertical_target_scales_with_input 640 360).2.1 (by decide),
   (vertical_target_scales_with_input 1080 720).2.2 (by decide)⟩

/-- C10 (counterexample): the invariant "error non-null implies status
FAILED" does not persist across calls: after `update_job(error="boom")`
a later `update_job(status=COMPLETED)` (no error argument) leaves the
job with a non-null error and status COMPLETED. -/
theorem update_job_error_invariant_not_preserved :
    jobStatus
        (update_job
          (update_job
            [("j1", { id := "j1", status := .queued, progress := 0,
                      message := "created" })]
            "j1" none none none none (some "boom"))
          "j1" (some .completed) none none none none) "j1" = some .completed ∧
      jobError
        (update_job
          (update_job
            [("j1", { id := "j1", status := .queued, progress := 0,
                      message := "created" })]
            "j1" none none none none (some "boom"))
          "j1" (some .completed) none none none none) "j1" = some (some "boom") ∧
      JobStatus.completed ≠ JobStatus.failed := by
  decide

/-- C10 (amended): for every job id present in the store, a call to
`update_job` whose error argument is a non-empty string leaves that
job's status FAILED (overriding any status passed in the same call) and
records the error — but this holds per call, not as a store invariant:
a later error-free status update can change the status while the error
remains set. -/
theorem update_job_nonempty_error_forces_failed (jobs : Jobs) (job_id : String)
    (st : Option JobStatus) (pr : Option ℤ) (ms : Option String)
    (rs : Option JobResult) (e : String)
    (h : (lookupJob jobs job_id).isSome) (he : e ≠ "") :
    jobStatus (update_job jobs job_id st pr ms rs (some e)) job_id = some .failed ∧
      jobError (update_job jobs job_id st pr ms rs (some e)) job_id = some (some e) :=
  update_job_error_spec jobs job_id st pr ms rs e h he

/-- C10 (witness): a call passing both `status = COMPLETED` and a
non-empty error ends with the job failed. -/
theorem update_job_nonempty_error_forces_failed_witness :
    jobStatus
        (update_job
          [("j1", { id := "j1", status := .queued, progress := 0,
                    message := "created" })]
          "j1" (some .completed) none none none (some "boom")) "j1" = some .failed ∧
      jobError
        (update_job
          [("j1", { id := "j1", status := .queued, progress := 0,
                    message := "created" })]
          "j1" (some .completed) none none none (some "boom")) "j1" =
        some (some "boom") :=
  update_job_nonempty_error_forces_failed
    [("j1", { id := "j1", status := .queued, progress := 0, message := "created" })]
    "j1" (some .completed) none none none "boom" (by decide) (by decide)

/-- One accumulation step: the increment is the probed duration when
ffprobe succeeded and `0` when it failed. -/
theorem rebase_chunk_segments_cons (c : ChunkTranscript)
    (rest : List ChunkTranscript) (cum : ℚ) :
    rebase_chunk_segments (c :: rest) cum =
      c.segments.map (fun s =>
        { start := s.start + cum, stop := s.stop + cum, text := s.text })
      ++ rebase_chunk_segments rest (cum + c.probe.getD 0) := by
  cases hp : c.probe <;> simp [rebase_chunk_segments, hp]

theorem rebase_chunk_segments_append (pre post : List ChunkTranscript) (cum : ℚ) :
    rebase_chunk_segments (pre ++ post) cum =
      rebase_chunk_segments pre cum ++
        rebase_chunk_segments post
          (cum + (pre.map (fun c => c.probe.getD 0)).sum) := by
  induction pre generalizing cum with
  | nil => simp [rebase_chunk_segments]
  | cons c rest ih =>
    simp [rebase_chunk_segments_cons, ih, add_assoc]

theorem rebase_chunk_segments_lower_bound (chunks : List ChunkTranscript) (cum : ℚ)
    (hdur : ∀ c ∈ chunks, 0 ≤ c.probe.getD 0)
    (hstart : ∀ c ∈ chunks, ∀ s ∈ c.segments, 0 ≤ s.start) :
    ∀ s ∈ rebase_chunk_segments chunks cum, cum ≤ s.start := by
  induction chunks generalizing cum with
  | nil => simp [rebase_chunk_segments]
  | cons c rest ih =>
    intro s hs
    rw [rebase_chunk_segments_cons] at hs
    rcases List.mem_append.mp hs with hmem | hmem
    · obtain ⟨s0, hs0, rfl⟩ := List.mem_map.mp hmem
      have h0 := hstart c (List.mem_cons_self _ _) s0 hs0
      show cum ≤ s0.start + cum
      linarith
    · have hge := ih (cum + c.probe.getD 0)
        (fun c' hc' => hdur c' (List.mem_cons_of_mem _ hc'))
        (fun c' hc' => hstart c' (List.mem_cons_of_mem _ hc'))
        s hmem
      have hd := hdur c (List.mem_cons_self _ _)
      linarith

theorem split_chunk_windows_getElem (D : ℚ) (n i : ℕ) (hi : i < n) :
    (split_chunk_windows D n)[i]? =
      some ((i : ℚ) * (D / n), (i : ℚ) * (D / n) + D / n) := by
  simp only [split_chunk_windows]
  rw [List.getElem?_map, List.getElem?_range hi, Option.map_some']

theorem rebase_chunk_segments_sorted (chunks : List ChunkTranscript) (cum : ℚ)
    (hdur : ∀ c ∈ chunks, 0 ≤ c.probe.getD 0)
    (hsorted : ∀ c ∈ chunks, c.segments.Pairwise (fun a b => a.start ≤ b.start))
    (hbound : ∀ c ∈ chunks, ∀ s ∈ c.segments,
        0 ≤ s.start ∧ s.start ≤ c.probe.getD 0) :
    (rebase_chunk_segments chunks cum).Pairwise (fun a b => a.start ≤ b.start) := by
  induction chunks generalizing cum with
  | nil => simp [rebase_chunk_segments]
  | cons c rest ih =>
    rw [rebase_chunk_segments_cons, List.pairwise_append]
    refine ⟨?_, ?_, ?_⟩
    · rw [List.pairwise_map]
      refine (hsorted c (List.mem_cons_self _ _)).imp ?_
      intro a b hab
      show a.start + cum ≤ b.start + cum
      linarith
    · exact ih (cum + c.probe.getD 0)
        (fun c' hc' => hdur c' (List.mem_cons_of_mem _ hc'))
        (fun c' hc' => hsorted c' (List.mem_cons_of_mem _ hc'))
        (fun c' hc' => hbound c' (List.mem_cons_of_mem _ hc'))
    · intro a ha b hb
      obtain ⟨a0, ha0, rfl⟩ := List.mem_map.mp ha
      have h1 := (hbound c (List.mem_cons_self _ _) a0 ha0).2
      have h2 := rebase_chunk_segments_lower_bound rest (cum + c.probe.getD 0)
        (fun c' hc' => hdur c' (List.mem_cons_of_mem _ hc'))
        (fun c' hc' s hs => (hbound c' (List.mem_cons_of_mem _ hc') s hs).1)
        b hb
      show a0.start + cum ≤ b.start
      linarith

/-- C7 (counterexample): the per-chunk ffprobe runs without
`check=True`, and on `returncode != 0` the `cumulative_time` increment
is silently skipped.  With chunk 0 (true duration 10, a segment
starting at 9) whose ffprobe fails, followed by chunk 1 with a segment
starting at 0, the concatenated transcript is `[9, 0]` — the second
chunk is not re-based by the cumulative duration of its predecessor
and the result is not sorted by start. -/
theorem chunked_transcription_unsorted_on_probe_failure :
    (transcribe_large_audio_with_chunks
        [{ probe := none,
           segments := [{ start := 9, stop := 10, text := "a" }], text := "a" },
         { probe := some 5,
           segments := [{ start := 0, stop := 1, text := "b" }],
           text := "b" }]).segments =
      [{ start := 9, stop := 10, text := "a" },
       { start := 0, stop := 1, text := "b" }] ∧
    ¬ ((9:ℚ) ≤ 0) := by
  constructor
  · show rebase_chunk_segments _ 0 = _
    norm_num [rebase_chunk_segments]
  · norm_num

/-- C7 (amended): chunked transcription cuts sequential, adjacent
(hence non-overlapping) time windows; each chunk's segments are
re-based by the running `cumulative_time`, which grows by a chunk's
ffprobe duration only when that ffprobe exits 0 (`probe.getD 0` — a
failed ffprobe contributes nothing and under-shifts all later chunks).
When every per-chunk ffprobe succeeds and every chunk transcript is
internally sorted with starts inside its probed duration, those
offsets are the cumulative duration of the preceding chunks and the
concatenated segment list is sorted by start. -/
theorem chunked_transcription_properties (chunks : List ChunkTranscript)
    (total_duration : ℚ) (n : ℕ)
    (hprobe : ∀ c ∈ chunks, c.probe.isSome = true)
    (hdur : ∀ c ∈ chunks, 0 ≤ c.probe.getD 0)
    (hsorted : ∀ c ∈ chunks, c.segments.Pairwise (fun a b => a.start ≤ b.start))
    (hbound : ∀ c ∈ chunks, ∀ s ∈ c.segments,
        0 ≤ s.start ∧ s.start ≤ c.probe.getD 0) :
    ((transcribe_large_audio_with_chunks chunks).segments.Pairwise
        (fun a b => a.start ≤ b.start)) ∧
    (∀ i : ℕ, i + 1 < n →
        ((split_chunk_windows total_duration n)[i+1]?).map Prod.fst =
          ((split_chunk_windows total_duration n)[i]?).map Prod.snd) ∧
    (∀ pre c post, chunks = pre ++ c :: post →
        (transcribe_large_audio_with_chunks chunks).segments =
          rebase_chunk_segments pre 0 ++
            c.segments.map (fun s =>
              { start := s.start + ((pre.map (fun c => c.probe.getD 0)).sum),
                stop := s.stop + ((pre.map (fun c => c.probe.getD 0)).sum),
                text := s.text }) ++
            rebase_chunk_segments post
              (((pre.map (fun c => c.probe.getD 0)).sum) + c.probe.getD 0)) := by
  refine ⟨?_, ?_, ?_⟩
  · exact rebase_chunk_segments_sorted chunks 0 hdur hsorted hbound
  · intro i hi1
    have hi0 : i < n := by omega
    rw [split_chunk_windows_getElem total_duration n (i+1) hi1,
        split_chunk_windows_getElem total_duration n i hi0]
    simp only [Option.map_some', Option.some.injEq]
    push_cast
    ring
  · intro pre c post hchunks
    subst hchunks
    show rebase_chunk_segments (pre ++ c :: post) 0 = _
    rw [rebase_chunk_segments_append, zero_add, rebase_chunk_segments_cons]
    simp [List.append_assoc]

/-- C7 (witness): the amended theorem applied at two concrete chunks
whose ffprobe calls both succeed. -/
theorem chunked_transcription_properties_witness :
    ((transcribe_large_audio_with_chunks
        [{ probe := some 10,
           segments := [{ start := 0, stop := 2, text := "a" },
                        { start := 3, stop := 4, text := "b" }],
           text := "a b" },
         { probe := some 5,
           segments := [{ start := 1, stop := 2, text := "c" }],
           text := "c" }]).segments.Pairwise
        (fun a b => a.start ≤ b.start)) ∧
    (∀ i : ℕ, i + 1 < 2 →
        ((split_chunk_windows 15 2)[i+1]?).map Prod.fst =
          ((split_chunk_windows 15 2)[i]?).map Prod.snd) ∧
    (∀ pre c post,
        ([{ probe := some 10,
            segments := [{ start := 0, stop := 2, text := "a" },
                         { start := 3, stop := 4, text := "b" }],
            text := "a b" },
          { probe := some 5,
            segments := [{ start := 1, stop := 2, text := "c" }],
            text := "c" }] : List ChunkTranscript) = pre ++ c :: post →
        (transcribe_large_audio_with_chunks
          [{ probe := some 10,
             segments := [{ start := 0, stop := 2, text := "a" },
                          { start := 3, stop := 4, text := "b" }],
             text := "a b" },
           { probe := some 5,
             segments := [{ start := 1, stop := 2, text := "c" }],
             text := "c" }]).segments =
          rebase_chunk_segments pre 0 ++
            c.segments.map (fun s =>
              { start := s.start + ((pre.map (fun c => c.probe.getD 0)).sum),
                stop := s.stop + ((pre.map (fun c => c.probe.getD 0)).sum),
                text := s.text }) ++
            rebase_chunk_segments post
              (((pre.map (fun c => c.probe.getD 0)).sum) + c.probe.getD 0)) :=
  chunked_transcription_properties _ 15 2 (by decide) (by decide) (by decide)
    (by decide)

/-- C8: a hook-detection transcription of material longer than 600
seconds dispatches to strategic sampling; the sampled result is tagged
`sampled = true`; and the sample windows are exactly an opening
two-minute window, three evenly spaced one-minute middle windows at
30%/50%/70%, and a closing two-minute window. -/
theorem sampled_transcription_long_videos (for_hooks : Bool) (d : ℚ)
    (file_size : ℕ) (o : SampleOracle)
    (hhooks : for_hooks = true) (hd : 600 < d) :
    transcribe_audio_with_openai_strategy for_hooks (some d) file_size =
        .ok .sampled ∧
    (transcribe_sampled_segments_for_hooks d o).sampled = true ∧
    segments_to_sample d =
      [(0, 120),
       (3/10 * d, 3/10 * d + 60),
       (5/10 * d, 5/10 * d + 60),
       (7/10 * d, 7/10 * d + 60),
       (d - 120, d)] := by
  subst hhooks
  refine ⟨?_, rfl, ?_⟩
  · simp [transcribe_audio_with_openai_strategy, hd]
  · have h300 : (300:ℚ) < d := by linarith
    have hmin : py_min (120:ℚ) d = 120 := by
      rw [py_min_eq]; exact min_eq_left (by linarith)
    have hmax : py_max (d - 120) (8/10 * d) = d - 120 := by
      rw [py_max_eq]; exact max_eq_left (by linarith)
    simp [segments_to_sample, gt_iff_lt, hd, h300, hmin, hmax]

/-- C8 (witness): the claim theorem applied at a 20-minute (1200 s)
source. -/
theorem sampled_transcription_long_videos_witness :
    transcribe_audio_with_openai_strategy true (some 1200) 0 = .ok .sampled ∧
    (transcribe_sampled_segments_for_hooks 1200
        { extract_ok := fun _ => true,
          transcribe := fun _ => .ok ("", []) }).sampled = true ∧
    segments_to_sample 1200 =
      [(0, 120),
       (3/10 * 1200, 3/10 * 1200 + 60),
       (5/10 * 1200, 5/10 * 1200 + 60),
       (7/10 * 1200, 7/10 * 1200 + 60),
       (1200 - 120, 1200)] :=
  sampled_transcription_long_videos true 1200 0
    { extract_ok := fun _ => true, transcribe := fun _ => .ok ("", []) }
    rfl (by decide)

end Reely
